import Mathlib

/-!
# Shallow embedding of LuaCppMsg (src/include/LuaCppMsg.hpp)

LuaCppMsg is a header-only, thread-safe message queue between Lua and C++.
This file embeds the core data model and operations of `LuaCppMsg.hpp`:

* `Key`     — `boost::variant<Int, Str>` map keys (`Message::Key`).
* `Item`    — the recursive `boost::variant` of message payloads
  (`Message::Item`): `Bool`, `Num` (`double`), `Str`, the custom types
  (a representative extension payload `Ext` carrying an `Int`, mirroring the
  test suite's `CustomType`, plus `CopyPtr<Ext>*` modelled as an address into
  an external heap), and the recursive `Map`
  (`std::unordered_map<Key, Item>`, modelled as an association list with
  unique keys irrelevant to the claims at hand).
* `Num` is C++ `double`; the core never performs arithmetic on it (numbers
  are only stored, moved and compared), so it is modelled exactly as `Rat`.
* `Msg` / `Nested` — the `Message` wrapper and its `Nested` accessor; both
  extract with `boost::get<T>` (throws `boost::bad_get` on a variant
  mismatch) and navigate with `unordered_map::at` (throws
  `std::out_of_range` for a missing key).
* `Queue`   — the mutex-guarded `std::queue<Item>`.  The mutex serializes
  whole push/pop/size bodies, so the sequential state-passing model below is
  the behaviour of each serialized critical section.
* `copyVisitor` — `Queue::CopyVisitor`, the push-time transform replacing
  `CopyPtr<T>*` nodes by owned copies of the pointed-to object.  Copy
  construction from an external address can fail (the extension's copy
  constructor throws); the external world is a `Heap : Addr → Option Ext`,
  with `none` meaning the copy construction fails.
-/

namespace LuaCppMsg

/-- External addresses (`CopyPtr<T>*` pointer values). -/
abbrev Addr := Nat

/-- Representative extension payload, mirroring the test suite's `CustomType`
which carries an `int`. -/
abbrev Ext := Int

/-- The external world a `CopyPtr` address points into; `none` means copy
construction from that address fails (throwing copy constructor). -/
abbrev Heap := Addr → Option Ext

/-- `Message::Key = boost::variant<Int, Str>`.  C++ `int` keys are only
stored, hashed and compared (no arithmetic), so `Int` is used directly. -/
inductive Key where
  | int (i : Int)
  | str (s : String)
deriving DecidableEq, Repr

mutual

/-- `Message::Item`: the recursive variant of message payloads. -/
inductive Item where
  | bool (b : Bool)
  | num (n : Rat)
  | str (s : String)
  | ext (e : Ext)
  | copyPtr (a : Addr)
  | map (es : Entries)
deriving Repr

/-- The entries of a `Message::Map` (`std::unordered_map<Key, Item>`),
as an association list. -/
inductive Entries where
  | nil
  | cons (k : Key) (v : Item) (rest : Entries)
deriving Repr

end

/-- The variant alternatives of `Item`, as requestable via `as<T>()`. -/
inductive Ty where
  | tBool
  | tNum
  | tStr
  | tExt
  | tCopyPtr
  | tMap
deriving DecidableEq, Repr

/-- Errors thrown by extraction and navigation: `boost::bad_get` from
`boost::get<T>` (TypeMismatch) and `std::out_of_range` from
`unordered_map::at` (KeyNotFound). -/
inductive ExtractError where
  | typeMismatch
  | keyNotFound
deriving DecidableEq, Repr

/-- Failure of an extension kind's copy constructor during
`Queue::CopyVisitor`. -/
inductive CopyError where
  | copyFailed
deriving DecidableEq, Repr

/-- The variant alternative currently held by an `Item`
(`boost::variant::which`, expressed as a `Ty`). -/
def Item.tag : Item → Ty
  | .bool _ => .tBool
  | .num _ => .tNum
  | .str _ => .tStr
  | .ext _ => .tExt
  | .copyPtr _ => .tCopyPtr
  | .map _ => .tMap

/-- A concrete payload extracted from an `Item` by `boost::get<T>`. -/
inductive Payload where
  | pBool (b : Bool)
  | pNum (n : Rat)
  | pStr (s : String)
  | pExt (e : Ext)
  | pCopyPtr (a : Addr)
  | pMap (es : Entries)
deriving Repr

/-- The payload currently held by an `Item`. -/
def Item.payload : Item → Payload
  | .bool b => .pBool b
  | .num n => .pNum n
  | .str s => .pStr s
  | .ext e => .pExt e
  | .copyPtr a => .pCopyPtr a
  | .map es => .pMap es

/-- `boost::get<T>(item)`: yields the held payload when the variant
currently holds alternative `t`, and throws `boost::bad_get`
(TypeMismatch) otherwise.  One clause per `get<T>` instantiation. -/
def boostGet (t : Ty) : Item → Except ExtractError Payload
  | .bool b => if t = .tBool then .ok (.pBool b) else .error .typeMismatch
  | .num n => if t = .tNum then .ok (.pNum n) else .error .typeMismatch
  | .str s => if t = .tStr then .ok (.pStr s) else .error .typeMismatch
  | .ext e => if t = .tExt then .ok (.pExt e) else .error .typeMismatch
  | .copyPtr a => if t = .tCopyPtr then .ok (.pCopyPtr a) else .error .typeMismatch
  | .map es => if t = .tMap then .ok (.pMap es) else .error .typeMismatch

/-- `unordered_map::find`-style lookup over the association list. -/
def Entries.lookup (k : Key) : Entries → Option Item
  | .nil => none
  | .cons k2 v rest => if k2 = k then some v else Entries.lookup k rest

/-- `Message::get` / `Message::Nested::get` body:
`boost::get<Map>(item)` (throws `bad_get` when the item is not a Map),
then `map.at(key)` (throws `std::out_of_range` when the key is absent),
returning the child item referenced at the key.  Purely a read: the
source takes `const` references and builds a `Nested` view. -/
def itemGet (k : Key) : Item → Except ExtractError Item
  | .map es =>
    match es.lookup k with
    | some v => .ok v
    | none => .error .keyNotFound
  | .bool _ => .error .typeMismatch
  | .num _ => .error .typeMismatch
  | .str _ => .error .typeMismatch
  | .ext _ => .error .typeMismatch
  | .copyPtr _ => .error .typeMismatch

/-- `Message::Nested`: the accessor view over an `Item` in the tree.  The
source holds `const Item*`; in this pure model the view carries the
referenced subtree. -/
structure Nested where
  item : Item

/-- `Message`: the root-level wrapper around an `Item`. -/
structure Msg where
  item : Item

/-- `Message::as<T>()` — `boost::get<T>(m_item)`. -/
def Msg.as (m : Msg) (t : Ty) : Except ExtractError Payload :=
  boostGet t m.item

/-- `Message::Nested::as<T>()` — `boost::get<T>(*m_pitem)`. -/
def Nested.as (n : Nested) (t : Ty) : Except ExtractError Payload :=
  boostGet t n.item

/-- `Message::get(key)` — returns a `Nested` over the child at `key`. -/
def Msg.get (m : Msg) (k : Key) : Except ExtractError Nested :=
  (itemGet k m.item).map Nested.mk

/-- `Message::Nested::get(key)` — returns a `Nested` over the child at
`key` of the current branch. -/
def Nested.get (n : Nested) (k : Key) : Except ExtractError Nested :=
  (itemGet k n.item).map Nested.mk

mutual

/-- `true` when the item contains no `CopyPtr` node at any depth: every
node is already owned. -/
def Item.ownsAll : Item → Bool
  | .bool _ => true
  | .num _ => true
  | .str _ => true
  | .ext _ => true
  | .copyPtr _ => false
  | .map es => Entries.ownsAll es

/-- `true` when no entry value contains a `CopyPtr` node at any depth. -/
def Entries.ownsAll : Entries → Bool
  | .nil => true
  | .cons _ v rest => Item.ownsAll v && Entries.ownsAll rest

end

/-- `true` when the item holds one of the three primitive kinds
(`Bool`, `Num`, `Str`). -/
def Item.isPrim : Item → Bool
  | .bool _ => true
  | .num _ => true
  | .str _ => true
  | .ext _ => false
  | .copyPtr _ => false
  | .map _ => false

mutual

/-- `true` when the item contains, at any depth, a `CopyPtr` whose copy
construction would fail (dead address in the heap). -/
def Item.hasDeadPtr (h : Heap) : Item → Bool
  | .bool _ => false
  | .num _ => false
  | .str _ => false
  | .ext _ => false
  | .copyPtr a => (h a).isNone
  | .map es => Entries.hasDeadPtr h es

/-- `true` when some entry value contains a failing `CopyPtr`. -/
def Entries.hasDeadPtr (h : Heap) : Entries → Bool
  | .nil => false
  | .cons _ v rest => Item.hasDeadPtr h v || Entries.hasDeadPtr h rest

end

mutual

/-- `Queue::CopyVisitor` applied through `boost::apply_visitor` to a
non-const `Item` (the `push(Item&&)` and `push_lua` paths): a
`CopyPtr<T>*` node becomes an owned `T` copy-constructed from the
pointed-to object (`T(*((T*)to_copy))`, which may throw), a `Map` is
rebuilt entry by entry with the visitor applied to every value, and
every other alternative passes through unchanged. -/
def copyVisitor (h : Heap) : Item → Except CopyError Item
  | .bool b => .ok (.bool b)
  | .num n => .ok (.num n)
  | .str s => .ok (.str s)
  | .ext e => .ok (.ext e)
  | .copyPtr a =>
    match h a with
    | some e => .ok (.ext e)
    | none => .error .copyFailed
  | .map es =>
    match copyEntries h es with
    | .ok es2 => .ok (.map es2)
    | .error e => .error e

/-- The `Map` arm of `Queue::CopyVisitor`: apply the visitor to every
entry value; a throwing copy constructor propagates out. -/
def copyEntries (h : Heap) : Entries → Except CopyError Entries
  | .nil => .ok .nil
  | .cons k v rest =>
    match copyVisitor h v with
    | .ok v2 =>
      match copyEntries h rest with
      | .ok rest2 => .ok (.cons k v2 rest2)
      | .error e => .error e
    | .error e => .error e

end

/-- `Queue::CopyVisitor` applied through `boost::apply_visitor` to a
*const* `Item` (the `push(const Item&)` overload): the variant passes
`const T&` operands, so the non-const `operator()(Map&)` overload is not
viable and a `Map` falls through to the generic pass-through template
(`T = const Map`), copied unchanged with no recursion into its entries.
A root `CopyPtr<T>*` still selects the pointer overload (the pointer is
passed by value), so it is still replaced by an owned copy. -/
def copyVisitorConst (h : Heap) : Item → Except CopyError Item
  | .copyPtr a =>
    match h a with
    | some e => .ok (.ext e)
    | none => .error .copyFailed
  | it => .ok it

/-- `Queue`: the state protected by `m_mutex` — the internal
`std::queue<Item>`, front at the head of the list. -/
structure Queue where
  items : List Item

/-- `Queue::size()` — the current element count. -/
def Queue.size (q : Queue) : Nat := q.items.length

/-- `Queue::push(Item&&)` (same body as `push_lua`): under the lock, run
`CopyVisitor` over the message, then append the result at the back.  A
throwing copy constructor propagates before `m_queue.push` runs, leaving
the stored sequence untouched; the pair returns the queue state after
the call and the outcome. -/
def Queue.push (h : Heap) (q : Queue) (v : Item) : Queue × Except CopyError Unit :=
  match copyVisitor h v with
  | .ok item => (⟨q.items ++ [item]⟩, .ok ())
  | .error e => (q, .error e)

/-- `Queue::push(const Item&)`: identical body, but `apply_visitor` over
the const reference selects `copyVisitorConst` behaviour (no recursion
into maps). -/
def Queue.pushConstRef (h : Heap) (q : Queue) (v : Item) : Queue × Except CopyError Unit :=
  match copyVisitorConst h v with
  | .ok item => (⟨q.items ++ [item]⟩, .ok ())
  | .error e => (q, .error e)

/-- `Queue::pop()` — under the lock: if empty, return `boost::none` with
the queue untouched (pop never blocks); otherwise move the front item
out, pop it, and wrap it as a `Message`. -/
def Queue.pop (q : Queue) : Option Msg × Queue :=
  match q.items with
  | [] => (none, q)
  | x :: rest => (some ⟨x⟩, ⟨rest⟩)

/-- A `LuaContext` object as created by `Queue::bind`: it wraps a
`lua_State*` (identified by a numeric id) and is itself a distinct heap
allocation, identified by a generation number from an allocation
counter. -/
structure LuaCtx where
  state : Nat
  gen : Nat
deriving DecidableEq, Repr

/-- The world `Queue::bind` interacts with: the allocation counter for
`new LuaContext`, the static `Queue::bound_states()` set, and the
functions registered into each `lua_State` by `registerFunction`. -/
structure BindWorld where
  nextGen : Nat
  boundStates : List Nat
  registered : List (Nat × String)
deriving DecidableEq, Repr

/-- The part of a `Queue` that `bind` mutates: the `m_lua` member
(`shared_ptr<LuaContext>`, empty before the first bind). -/
structure QueueBinding where
  m_lua : Option LuaCtx
deriving DecidableEq, Repr

/-- `Queue::bind(lua_State* L)`:
`m_lua = Lua(new LuaContext(L));` unconditionally allocates a fresh
`LuaContext` over `L` and reassigns `m_lua`; then, only when `L` is not
yet in the static `bound_states()` set, registers `size`, `push` and
`pop` into the Lua state and inserts `L` into the set. -/
def Queue.bind (w : BindWorld) (_q : QueueBinding) (L : Nat) :
    BindWorld × QueueBinding :=
  let ctx : LuaCtx := ⟨L, w.nextGen⟩
  let w1 : BindWorld := { w with nextGen := w.nextGen + 1 }
  let q1 : QueueBinding := { m_lua := some ctx }
  if L ∈ w1.boundStates then (w1, q1)
  else
    ({ w1 with
        boundStates := w1.boundStates ++ [L]
        registered := w1.registered ++ [(L, "size"), (L, "push"), (L, "pop")] },
      q1)

/-! ## Supporting lemmas -/

mutual

/-- On an item with no `CopyPtr` node the visitor is the identity. -/
theorem copyVisitor_of_ownsAll (h : Heap) :
    (it : Item) → it.ownsAll = true → copyVisitor h it = .ok it
  | .bool _, _ => rfl
  | .num _, _ => rfl
  | .str _, _ => rfl
  | .ext _, _ => rfl
  | .copyPtr _, hp => by simp [Item.ownsAll] at hp
  | .map es, hp => by
    have h2 := copyEntries_of_ownsAll h es (by simpa [Item.ownsAll] using hp)
    simp [copyVisitor, h2]

/-- On entries with no `CopyPtr` node the visitor is the identity. -/
theorem copyEntries_of_ownsAll (h : Heap) :
    (es : Entries) → es.ownsAll = true → copyEntries h es = .ok es
  | .nil, _ => rfl
  | .cons k v rest, hp => by
    have h1 : v.ownsAll = true ∧ rest.ownsAll = true := by
      simpa [Entries.ownsAll, Bool.and_eq_true] using hp
    simp [copyEntries, copyVisitor_of_ownsAll h v h1.1,
      copyEntries_of_ownsAll h rest h1.2]

end

mutual

/-- When no copy construction fails, the visitor succeeds. -/
theorem copyVisitor_of_not_hasDeadPtr (h : Heap) :
    (it : Item) → it.hasDeadPtr h = false → ∃ it2, copyVisitor h it = .ok it2
  | .bool b, _ => ⟨.bool b, rfl⟩
  | .num n, _ => ⟨.num n, rfl⟩
  | .str s, _ => ⟨.str s, rfl⟩
  | .ext e, _ => ⟨.ext e, rfl⟩
  | .copyPtr a, hp => by
    simp only [Item.hasDeadPtr, Option.isNone_eq_false_iff, Option.isSome_iff_exists] at hp
    obtain ⟨e, he⟩ := hp
    exact ⟨.ext e, by simp [copyVisitor, he]⟩
  | .map es, hp => by
    obtain ⟨es2, he⟩ :=
      copyEntries_of_not_hasDeadPtr h es (by simpa [Item.hasDeadPtr] using hp)
    exact ⟨.map es2, by simp [copyVisitor, he]⟩

/-- When no copy construction fails, the visitor succeeds on entries. -/
theorem copyEntries_of_not_hasDeadPtr (h : Heap) :
    (es : Entries) → es.hasDeadPtr h = false → ∃ es2, copyEntries h es = .ok es2
  | .nil, _ => ⟨.nil, rfl⟩
  | .cons k v rest, hp => by
    have h1 : v.hasDeadPtr h = false ∧ rest.hasDeadPtr h = false := by
      simpa [Entries.hasDeadPtr, Bool.or_eq_false_iff] using hp
    obtain ⟨v2, hv⟩ := copyVisitor_of_not_hasDeadPtr h v h1.1
    obtain ⟨rest2, hr⟩ := copyEntries_of_not_hasDeadPtr h rest h1.2
    exact ⟨.cons k v2 rest2, by simp [copyEntries, hv, hr]⟩

end

mutual

/-- A failing copy construction anywhere in the item makes the visitor
throw. -/
theorem copyVisitor_of_hasDeadPtr (h : Heap) :
    (it : Item) → it.hasDeadPtr h = true → copyVisitor h it = .error .copyFailed
  | .bool _, hp => by simp [Item.hasDeadPtr] at hp
  | .num _, hp => by simp [Item.hasDeadPtr] at hp
  | .str _, hp => by simp [Item.hasDeadPtr] at hp
  | .ext _, hp => by simp [Item.hasDeadPtr] at hp
  | .copyPtr a, hp => by
    simp only [Item.hasDeadPtr, Option.isNone_iff_eq_none] at hp
    simp [copyVisitor, hp]
  | .map es, hp => by
    have h2 := copyEntries_of_hasDeadPtr h es (by simpa [Item.hasDeadPtr] using hp)
    simp [copyVisitor, h2]

/-- A failing copy construction in some entry makes the visitor throw. -/
theorem copyEntries_of_hasDeadPtr (h : Heap) :
    (es : Entries) → es.hasDeadPtr h = true → copyEntries h es = .error .copyFailed
  | .cons k v rest, hp => by
    have h1 : v.hasDeadPtr h = true ∨ rest.hasDeadPtr h = true := by
      simpa [Entries.hasDeadPtr, Bool.or_eq_true] using hp
    rcases h1 with h1 | h1
    · simp [copyEntries, copyVisitor_of_hasDeadPtr h v h1]
    · rcases hv : v.hasDeadPtr h with _ | _
      · obtain ⟨v2, hv2⟩ := copyVisitor_of_not_hasDeadPtr h v hv
        simp [copyEntries, hv2, copyEntries_of_hasDeadPtr h rest h1]
      · simp [copyEntries, copyVisitor_of_hasDeadPtr h v hv]

end

mutual

/-- A successful visitor run yields a fully owned item: the result
contains no `CopyPtr` node at any depth. -/
theorem ownsAll_of_copyVisitor (h : Heap) :
    (it it2 : Item) → copyVisitor h it = .ok it2 → it2.ownsAll = true
  | .bool _, it2, hp => by
    simp only [copyVisitor, Except.ok.injEq] at hp
    simp [← hp, Item.ownsAll]
  | .num _, it2, hp => by
    simp only [copyVisitor, Except.ok.injEq] at hp
    simp [← hp, Item.ownsAll]
  | .str _, it2, hp => by
    simp only [copyVisitor, Except.ok.injEq] at hp
    simp [← hp, Item.ownsAll]
  | .ext _, it2, hp => by
    simp only [copyVisitor, Except.ok.injEq] at hp
    simp [← hp, Item.ownsAll]
  | .copyPtr a, it2, hp => by
    rcases ha : h a with _ | e
    · simp [copyVisitor, ha] at hp
    · simp only [copyVisitor, ha, Except.ok.injEq] at hp
      simp [← hp, Item.ownsAll]
  | .map es, it2, hp => by
    rcases he : copyEntries h es with e | es2
    · simp [copyVisitor, he] at hp
    · simp only [copyVisitor, he, Except.ok.injEq] at hp
      have := ownsAll_of_copyEntries h es es2 he
      simp [← hp, Item.ownsAll, this]

/-- A successful visitor run yields fully owned entries. -/
theorem ownsAll_of_copyEntries (h : Heap) :
    (es es2 : Entries) → copyEntries h es = .ok es2 → es2.ownsAll = true
  | .nil, es2, hp => by
    simp only [copyEntries, Except.ok.injEq] at hp
    simp [← hp, Entries.ownsAll]
  | .cons k v rest, es2, hp => by
    rcases hv : copyVisitor h v with e | v2
    · simp [copyEntries, hv] at hp
    · rcases hr : copyEntries h rest with e | rest2
      · simp [copyEntries, hv, hr] at hp
      · simp only [copyEntries, hv, hr, Except.ok.injEq] at hp
        have h1 := ownsAll_of_copyVisitor h v v2 hv
        have h2 := ownsAll_of_copyEntries h rest rest2 hr
        simp [← hp, Entries.ownsAll, h1, h2]

end

/-- Pushing an already-owned item appends exactly that item at the back
and returns normally. -/
theorem push_of_ownsAll (h : Heap) (q : Queue) (v : Item)
    (hv : v.ownsAll = true) :
    Queue.push h q v = (⟨q.items ++ [v]⟩, .ok ()) := by
  simp [Queue.push, copyVisitor_of_ownsAll h v hv]

/-! ## Claims -/

/-- C2: the Queue is strict FIFO.  The mutex serializes complete
push/pop bodies, so completed pushes form a total order; in that order,
pushing `v1, v2, v3` appends them at the back in order (for any prior
queue content), and when all three pushes complete before any pop
begins on an otherwise empty queue, three pops return exactly
`v1, v2, v3`. -/
theorem queue_fifo_order (h : Heap) (q : Queue) (v1 v2 v3 : Item)
    (h1 : v1.ownsAll = true) (h2 : v2.ownsAll = true) (h3 : v3.ownsAll = true) :
    ((Queue.push h (Queue.push h (Queue.push h q v1).1 v2).1 v3).1).items
        = q.items ++ [v1, v2, v3] ∧
      (q.items = [] →
        ((Queue.push h (Queue.push h (Queue.push h q v1).1 v2).1 v3).1).pop
            = (some ⟨v1⟩, ⟨[v2, v3]⟩) ∧
          (Queue.pop ⟨[v2, v3]⟩) = (some ⟨v2⟩, ⟨[v3]⟩) ∧
          (Queue.pop ⟨[v3]⟩) = (some ⟨v3⟩, ⟨[]⟩)) := by
  rw [push_of_ownsAll h q v1 h1]
  rw [push_of_ownsAll h ⟨q.items ++ [v1]⟩ v2 h2]
  rw [push_of_ownsAll h ⟨(q.items ++ [v1]) ++ [v2]⟩ v3 h3]
  refine ⟨by simp, fun hq => ?_⟩
  rw [hq]
  exact ⟨rfl, rfl, rfl⟩

/-- C2 witness: pushing the booleans true, false, true in order onto an
empty queue and popping three times yields them back in order. -/
theorem queue_fifo_order_check :
    ((Queue.push (fun _ => none) (Queue.push (fun _ => none)
          (Queue.push (fun _ => none) ⟨[]⟩ (.bool true)).1 (.bool false)).1
          (.num 3)).1).items = [] ++ [.bool true, .bool false, .num 3] ∧
      ([] = ([] : List Item) →
        ((Queue.push (fun _ => none) (Queue.push (fun _ => none)
            (Queue.push (fun _ => none) ⟨[]⟩ (.bool true)).1 (.bool false)).1
            (.num 3)).1).pop = (some ⟨.bool true⟩, ⟨[.bool false, .num 3]⟩) ∧
          (Queue.pop ⟨[.bool false, .num 3]⟩) = (some ⟨.bool false⟩, ⟨[.num 3]⟩) ∧
          (Queue.pop ⟨[.num 3]⟩) = (some ⟨.num 3⟩, ⟨[]⟩)) := by
  have := queue_fifo_order (fun _ => none) ⟨[]⟩ (.bool true) (.bool false)
    (.num 3) rfl rfl rfl
  exact ⟨this.1, fun _ => this.2 rfl⟩

/-- C3: pop on an empty queue (freshly constructed or fully drained)
returns the empty optional immediately rather than blocking or raising,
leaves the queue state unchanged — so every repeated call while the
queue stays empty does the same — and size reports 0. -/
theorem pop_empty_queue (q : Queue) (hq : q.items = []) :
    Queue.pop q = (none, q) ∧ Queue.size q = 0 ∧
      Queue.pop (Queue.pop q).2 = (none, q) := by
  have hp : Queue.pop q = (none, q) := by
    unfold Queue.pop
    rw [hq]
  exact ⟨hp, by simp [Queue.size, hq], by rw [hp, hp]⟩

/-- C3 witness: the freshly constructed queue. -/
theorem pop_empty_queue_check :
    Queue.pop ⟨[]⟩ = (none, (⟨[]⟩ : Queue)) ∧ Queue.size ⟨[]⟩ = 0 ∧
      Queue.pop (Queue.pop ⟨[]⟩).2 = (none, (⟨[]⟩ : Queue)) :=
  pop_empty_queue ⟨[]⟩ rfl

/-- C4: `as<B>()` on a Value (through `Message` or through a `Nested`
accessor) holding a different variant A fails with TypeMismatch and
never produces a defaulted, zeroed or coerced payload; when the held
variant is exactly the requested one, it returns the held payload. -/
theorem as_type_mismatch_law (it : Item) (t : Ty) :
    (it.tag ≠ t →
        Msg.as ⟨it⟩ t = .error .typeMismatch ∧
          Nested.as ⟨it⟩ t = .error .typeMismatch) ∧
      (it.tag = t →
        Msg.as ⟨it⟩ t = .ok it.payload ∧ Nested.as ⟨it⟩ t = .ok it.payload) := by
  cases it <;> cases t <;>
    simp [Msg.as, Nested.as, boostGet, Item.tag, Item.payload]

/-- C4 witness: a Boolean is not coerced to Number (`as<Num>` on a Bool
fails with TypeMismatch), and `as<Bool>` on the same Value returns the
held Boolean. -/
theorem as_type_mismatch_law_check :
    Msg.as ⟨.bool true⟩ .tNum = .error .typeMismatch ∧
      Msg.as ⟨.bool true⟩ .tBool = .ok (.pBool true) :=
  ⟨((as_type_mismatch_law (.bool true) .tNum).1 (by decide)).1,
    ((as_type_mismatch_law (.bool true) .tBool).2 rfl).1⟩

/-- C5: `get(key)` (through `Message` or through a `Nested` accessor) on
a Map returns an accessor over the child stored at the key when
present, fails with KeyNotFound when absent (no insertion or
auto-creation — the source reads a `const` map with `at`), and fails
with TypeMismatch when the Value does not hold a Map. -/
theorem get_key_law (it : Item) (k : Key) :
    (∀ es, it = .map es →
        (∀ v, es.lookup k = some v →
            Msg.get ⟨it⟩ k = .ok ⟨v⟩ ∧ Nested.get ⟨it⟩ k = .ok ⟨v⟩) ∧
          (es.lookup k = none →
            Msg.get ⟨it⟩ k = .error .keyNotFound ∧
              Nested.get ⟨it⟩ k = .error .keyNotFound)) ∧
      (it.tag ≠ .tMap →
        Msg.get ⟨it⟩ k = .error .typeMismatch ∧
          Nested.get ⟨it⟩ k = .error .typeMismatch) := by
  constructor
  · rintro es rfl
    constructor
    · intro v hv
      simp [Msg.get, Nested.get, itemGet, hv, Except.map]
    · intro hv
      simp [Msg.get, Nested.get, itemGet, hv, Except.map]
  · intro hne
    cases it <;> simp [Item.tag] at hne ⊢ <;>
      simp [Msg.get, Nested.get, itemGet, Except.map]

/-- C5 witness: on the map `{"a": true}`, getting "a" returns the
stored Boolean child, getting "b" fails with KeyNotFound, and getting a
key on a Number fails with TypeMismatch. -/
theorem get_key_law_check :
    Msg.get ⟨.map (.cons (.str "a") (.bool true) .nil)⟩ (.str "a")
        = .ok ⟨.bool true⟩ ∧
      Msg.get ⟨.map (.cons (.str "a") (.bool true) .nil)⟩ (.str "b")
        = .error .keyNotFound ∧
      Msg.get ⟨.num 3⟩ (.str "a") = .error .typeMismatch :=
  ⟨(((get_key_law (.map (.cons (.str "a") (.bool true) .nil)) (.str "a")).1
      (.cons (.str "a") (.bool true) .nil) rfl).1 (.bool true) rfl).1,
    (((get_key_law (.map (.cons (.str "a") (.bool true) .nil)) (.str "b")).1
      (.cons (.str "a") (.bool true) .nil) rfl).2 rfl).1,
    ((get_key_law (.num 3) (.str "a")).2 (by decide)).1⟩

/-- C6: round-trip for every primitive kind (Boolean, Number, String):
pushing such a Value onto an empty queue and popping returns some
message holding exactly the pushed value, and extracting at its own
variant tag yields the held payload — value and type are preserved
through the queue. -/
theorem roundtrip_primitive (h : Heap) (q : Queue) (v : Item)
    (hv : v.isPrim = true) (hq : q.items = []) :
    (Queue.push h q v).2 = .ok () ∧
      ((Queue.push h q v).1).pop = (some ⟨v⟩, ⟨[]⟩) ∧
      Msg.as ⟨v⟩ v.tag = .ok v.payload := by
  have howns : v.ownsAll = true := by
    cases v <;> simp [Item.isPrim] at hv <;> rfl
  rw [push_of_ownsAll h q v howns]
  refine ⟨rfl, ?_, ?_⟩
  · rw [hq]
    rfl
  · cases v <;> simp [Item.isPrim] at hv <;>
      simp [Msg.as, boostGet, Item.tag, Item.payload]

/-- C6 witness: the number 5.4 round-trips through an empty queue with
its variant tag intact. -/
theorem roundtrip_primitive_check :
    (Queue.push (fun _ => none) ⟨[]⟩ (.num 5.4)).2 = .ok () ∧
      ((Queue.push (fun _ => none) ⟨[]⟩ (.num 5.4)).1).pop
        = (some ⟨.num 5.4⟩, ⟨[]⟩) ∧
      Msg.as ⟨.num 5.4⟩ (Item.tag (.num 5.4)) = .ok (Item.payload (.num 5.4)) :=
  roundtrip_primitive (fun _ => none) ⟨[]⟩ (.num 5.4) rfl rfl

/-- C7: atomicity of push on copy failure.  Whenever the copy run by
push fails (for either push overload), push propagates the failure and
the stored sequence — contents, order and size — is exactly what it was
before the call; and a pushed Value containing an extension whose copy
constructor fails does make the visitor of the move overload fail. -/
theorem push_copy_failure_atomic (h : Heap) (q : Queue) (v : Item) :
    (∀ e, (Queue.push h q v).2 = .error e → (Queue.push h q v).1 = q) ∧
      (∀ e, (Queue.pushConstRef h q v).2 = .error e →
        (Queue.pushConstRef h q v).1 = q) ∧
      (v.hasDeadPtr h = true → (Queue.push h q v).2 = .error .copyFailed) := by
  refine ⟨?_, ?_, ?_⟩
  · intro e he
    unfold Queue.push at he ⊢
    cases hcv : copyVisitor h v <;> simp [hcv] at he ⊢
  · intro e he
    unfold Queue.pushConstRef at he ⊢
    cases hcv : copyVisitorConst h v <;> simp [hcv] at he ⊢
  · intro hd
    simp [Queue.push, copyVisitor_of_hasDeadPtr h v hd]

/-- C7 witness: pushing a `CopyPtr` to a destroyed object onto a queue
already holding one string fails and leaves that queue exactly as it
was. -/
theorem push_copy_failure_atomic_check :
    (Queue.push (fun _ => none) ⟨[.str "old"]⟩ (.copyPtr 0)).2
        = .error .copyFailed ∧
      (Queue.push (fun _ => none) ⟨[.str "old"]⟩ (.copyPtr 0)).1
        = ⟨[.str "old"]⟩ :=
  ⟨(push_copy_failure_atomic (fun _ => none) ⟨[.str "old"]⟩ (.copyPtr 0)).2.2
      rfl,
    (push_copy_failure_atomic (fun _ => none) ⟨[.str "old"]⟩ (.copyPtr 0)).1
      .copyFailed
      ((push_copy_failure_atomic (fun _ => none) ⟨[.str "old"]⟩
        (.copyPtr 0)).2.2 rfl)⟩

/-- C9: the transfer-safety copier is the identity on already-owned
values: on a Value with no `CopyPtr` node at any depth, the visitor
returns the value unchanged, so push stores exactly the item it was
passed. -/
theorem copier_identity_on_owned (h : Heap) (q : Queue) (it : Item)
    (hit : it.ownsAll = true) :
    copyVisitor h it = .ok it ∧
      (Queue.push h q it).1.items = q.items ++ [it] ∧
      (Queue.push h q it).2 = .ok () := by
  have hid := copyVisitor_of_ownsAll h it hit
  exact ⟨hid, by simp [Queue.push, hid], by simp [Queue.push, hid]⟩

/-- C9 witness: a nested map of primitives passes through the copier
unchanged and is stored as passed. -/
theorem copier_identity_on_owned_check :
    copyVisitor (fun _ => none)
        (.map (.cons (.int 7) (.num 3) (.cons (.str "s") (.bool true) .nil)))
        = .ok (.map (.cons (.int 7) (.num 3)
            (.cons (.str "s") (.bool true) .nil))) ∧
      (Queue.push (fun _ => none) ⟨[]⟩
          (.map (.cons (.int 7) (.num 3)
            (.cons (.str "s") (.bool true) .nil)))).1.items
        = [] ++ [.map (.cons (.int 7) (.num 3)
            (.cons (.str "s") (.bool true) .nil))] ∧
      (Queue.push (fun _ => none) ⟨[]⟩
          (.map (.cons (.int 7) (.num 3)
            (.cons (.str "s") (.bool true) .nil)))).2 = .ok () :=
  copier_identity_on_owned (fun _ => none) ⟨[]⟩
    (.map (.cons (.int 7) (.num 3) (.cons (.str "s") (.bool true) .nil))) rfl

/-- C10: push is a pure back-append and pop removes only the front.
When push returns (the copy succeeded, producing `v2`), the new
sequence is the old one with `v2` appended: the size grew by one and
every previously stored entry is unchanged at its position; a
successful pop returns the front entry and leaves exactly the rest, in
order. -/
theorem push_back_append_pop_front (h : Heap) (q : Queue) (v v2 : Item)
    (hv : copyVisitor h v = .ok v2) :
    (Queue.push h q v).1.items = q.items ++ [v2] ∧
      (Queue.push h q v).1.size = q.size + 1 ∧
      ((Queue.push h q v).1.items.take q.items.length) = q.items ∧
      (∀ x rest, q.items = x :: rest → Queue.pop q = (some ⟨x⟩, ⟨rest⟩)) := by
  have hpush : Queue.push h q v = (⟨q.items ++ [v2]⟩, .ok ()) := by
    simp [Queue.push, hv]
  refine ⟨by rw [hpush], by simp [hpush, Queue.size], ?_, ?_⟩
  · rw [hpush]
    exact List.take_left q.items [v2]
  · intro x rest hx
    unfold Queue.pop
    rw [hx]

/-- C10 witness: pushing a number onto a queue holding one string
appends it behind the string, and popping returns the string leaving
the number. -/
theorem push_back_append_pop_front_check :
    (Queue.push (fun _ => none) ⟨[.str "old"]⟩ (.num 2) ).1.items
        = [.str "old"] ++ [.num 2] ∧
      (Queue.push (fun _ => none) ⟨[.str "old"]⟩ (.num 2)).1.size
        = Queue.size ⟨[.str "old"]⟩ + 1 ∧
      ((Queue.push (fun _ => none) ⟨[.str "old"]⟩ (.num 2)).1.items.take
          [Item.str "old"].length) = [.str "old"] ∧
      (∀ x rest, [Item.str "old"] = x :: rest →
        Queue.pop ⟨[.str "old"]⟩ = (some ⟨x⟩, ⟨rest⟩)) :=
  push_back_append_pop_front (fun _ => none) ⟨[.str "old"]⟩ (.num 2) (.num 2)
    rfl

/-- C1 (code defect): the claimed guarantee fails for the
`push(const Item&)` overload.  `boost::apply_visitor` over the const
reference presents the held `Map` as `const Map&`, which cannot select
the non-const `CopyVisitor::operator()(Map&)` recursion overload and
falls through to the generic pass-through template, so a `CopyPtr`
nested inside a Map is stored unreplaced.  At the concrete input
`{"temp": CopyPtr 0}` with the pointee alive, that push succeeds yet
stores an item that still contains an unsafe external reference —
while the move overload on the same input stores the owned copy. -/
theorem pushConstRef_keeps_nested_copyPtr :
    Queue.pushConstRef (fun _ => some 7) ⟨[]⟩
        (.map (.cons (.str "temp") (.copyPtr 0) .nil))
        = (⟨[.map (.cons (.str "temp") (.copyPtr 0) .nil)]⟩, .ok ()) ∧
      Item.ownsAll (.map (.cons (.str "temp") (.copyPtr 0) .nil)) = false ∧
      Queue.push (fun _ => some 7) ⟨[]⟩
          (.map (.cons (.str "temp") (.copyPtr 0) .nil))
        = (⟨[.map (.cons (.str "temp") (.ext 7) .nil)]⟩, .ok ()) := by
  refine ⟨rfl, rfl, ?_⟩
  simp [Queue.push, copyVisitor, copyEntries]

/-- C8 counterexample: re-binding the same Lua state is not a no-op on
the binding state of the Queue.  Starting from a fresh world and an
unbound queue, binding state 1 twice leaves `m_lua` holding a different
(freshly allocated) `LuaContext` than the first bind left. -/
theorem bind_rebind_changes_m_lua :
    (Queue.bind (Queue.bind ⟨0, [], []⟩ ⟨none⟩ 1).1
        (Queue.bind ⟨0, [], []⟩ ⟨none⟩ 1).2 1).2
      ≠ (Queue.bind ⟨0, [], []⟩ ⟨none⟩ 1).2 := by
  decide

/-- C8 (amended): re-binding a runtime state that is already in the
static `bound_states()` set registers nothing again — the set and the
registered operations are exactly as the first bind left them — and
the queue remains bound to the same `lua_State`, but through a freshly
allocated `LuaContext` object replacing the previous `m_lua`. -/
theorem bind_rebind_registers_nothing (w : BindWorld) (q : QueueBinding)
    (L : Nat) (hL : L ∈ w.boundStates) :
    (Queue.bind w q L).1.boundStates = w.boundStates ∧
      (Queue.bind w q L).1.registered = w.registered ∧
      (Queue.bind w q L).2.m_lua = some ⟨L, w.nextGen⟩ := by
  simp [Queue.bind, hL]

/-- C8 witness: rebinding state 1 in the world the first bind of
state 1 produced. -/
theorem bind_rebind_registers_nothing_check :
    (Queue.bind ⟨1, [1], [(1, "size"), (1, "push"), (1, "pop")]⟩ ⟨some ⟨1, 0⟩⟩
        1).1.boundStates = [1] ∧
      (Queue.bind ⟨1, [1], [(1, "size"), (1, "push"), (1, "pop")]⟩
          ⟨some ⟨1, 0⟩⟩ 1).1.registered
        = [(1, "size"), (1, "push"), (1, "pop")] ∧
      (Queue.bind ⟨1, [1], [(1, "size"), (1, "push"), (1, "pop")]⟩
          ⟨some ⟨1, 0⟩⟩ 1).2.m_lua = some ⟨1, 1⟩ :=
  bind_rebind_registers_nothing ⟨1, [1], [(1, "size"), (1, "push"), (1, "pop")]⟩
    ⟨some ⟨1, 0⟩⟩ 1 (by decide)

end LuaCppMsg
